import Mathlib

/-!
Verification development for the reactive store library (src/index.js).

The file shallowly embeds the library's core: the keyed pub/sub store
returned by `reactiveFactory` / `reactiveObjectFactory`, the argument
tokenizer `parseParams`, the parameter resolver `resolveParam`, the
dependency wiring `setupComputed` (with its `evaluateExpression`), the
watcher callback of `setupWatchers`, and the `bind` wiring.  JavaScript
strings are modelled as Lean `String`s over their character lists,
JavaScript numbers appearing in the claims as integers (`Int`), and the
iteration order of `Object.entries` over a subscription table is modelled
faithfully: ECMAScript orders own property keys with array-index keys
first in ascending numeric order, followed by the remaining string keys in
insertion order.
-/

namespace Reactive

/-- Whitespace as matched by JavaScript `trim()` and the `\s` regex class
(for the ASCII range used by the attribute mini-language). -/
def isJsSpace (c : Char) : Bool :=
  c = ' ' || c = '\t' || c = '\n' || c = '\r' || c = '\x0b' || c = '\x0c'

/-- Embedding of JavaScript `String.prototype.trim`. -/
def jsTrim (s : String) : String :=
  String.mk (((s.data.dropWhile isJsSpace).reverse.dropWhile isJsSpace).reverse)

/-- The single-quote character (written via its code point to keep the
source free of quote-escape noise). -/
def singleQuoteChar : Char := Char.ofNat 39

/-- Word characters of the JavaScript regex class `\w` = `[A-Za-z0-9_]`. -/
def isWordChar (c : Char) : Bool :=
  c.isAlpha || c.isDigit || c = '_'

/-- If `pat` is a prefix of `cs`, return the remainder of `cs`. -/
def chompStart : List Char → List Char → Option (List Char)
  | [], cs => some cs
  | _ :: _, [] => none
  | p :: ps, c :: cs => if p = c then chompStart ps cs else none

/-- Split a character list at every occurrence of `sep`
(JavaScript `String.prototype.split` with a one-character separator). -/
def splitChars (sep : Char) : List Char → List Char → List String
  | [], cur => [String.mk cur.reverse]
  | c :: cs, cur =>
    if c = sep then String.mk cur.reverse :: splitChars sep cs []
    else splitChars sep cs (c :: cur)

/-- JavaScript `s.split(sep)` for a one-character separator string. -/
def jsSplit (s : String) (sep : Char) : List String :=
  splitChars sep s.data []

/-- Substring test, embedding JavaScript `String.prototype.includes`. -/
def strContainsGo (pat : List Char) : List Char → Bool
  | [] => pat.isEmpty
  | c :: cs => (chompStart pat (c :: cs)).isSome || strContainsGo pat cs

/-- Whether `pat` occurs as a substring of `s` (JavaScript `includes`). -/
def strContains (s pat : String) : Bool :=
  pat.data.isEmpty || strContainsGo pat.data s.data

/-- Association-list lookup keyed the way JavaScript object property access
is (first — and by invariant only — binding for the key). -/
def assocFind {κ β : Type} [BEq κ] (l : List (κ × β)) (k : κ) : Option β :=
  (l.find? (fun p => p.1 == k)).map (fun p => p.2)

/-- Association-list update with JavaScript object-assignment semantics:
an existing key keeps its position, a new key is appended. -/
def assocUpdate {κ β : Type} [BEq κ] (l : List (κ × β)) (k : κ) (v : β) :
    List (κ × β) :=
  if l.any (fun p => p.1 == k) then
    l.map (fun p => if p.1 == k then (k, v) else p)
  else l ++ [(k, v)]

/-- Decimal digit strings in canonical form: nonempty, all digits, and no
leading zero except for the single string `"0"`.  This is exactly the form
of both a JSON integer's digit part and an ECMAScript canonical numeric
string. -/
def isCanonicalDigits : List Char → Bool
  | [] => false
  | ['0'] => true
  | '0' :: _ :: _ => false
  | cs => cs.all Char.isDigit

/-- Numeric value of a decimal digit list. -/
def digitsVal (cs : List Char) : Nat :=
  cs.foldl (fun a c => 10 * a + (c.toNat - 48)) 0

/-- ECMAScript array-index test for a property key: the key is the
canonical decimal representation of an integer `n` with `n < 2^32 - 1`.
Returns the index when the key is one. -/
def jsArrayIndex (s : String) : Option Nat :=
  if isCanonicalDigits s.data then
    let n := digitsVal s.data
    if n < 4294967295 then some n else none
  else none

/-- Ordered insertion for the array-index sort. -/
def insertIdx {β : Type} (x : Nat × β) : List (Nat × β) → List (Nat × β)
  | [] => [x]
  | y :: ys => if x.1 ≤ y.1 then x :: y :: ys else y :: insertIdx x ys

/-- Insertion sort by the numeric index component. -/
def sortIdx {β : Type} : List (Nat × β) → List (Nat × β)
  | [] => []
  | x :: xs => insertIdx x (sortIdx xs)

/-- Embedding of the iteration order of `Object.entries` over a property
table held as an insertion-ordered association list: array-index keys
first in ascending numeric order, then the remaining keys in insertion
order (ECMAScript OrdinaryOwnPropertyKeys). -/
def jsEntries {β : Type} (subs : List (String × β)) : List (String × β) :=
  (sortIdx (subs.filterMap
      (fun p => (jsArrayIndex p.1).map (fun n => (n, p))))).map (fun q => q.2)
    ++ subs.filter (fun p => (jsArrayIndex p.1).isNone)

/-- Runtime values flowing through stores and the parameter resolver.
JavaScript numbers are modelled as integers (every number in the library's
claims is integral; floating point is outside the model), and JSON arrays
and objects are outside the model. -/
inductive Value where
  | undef
  | null
  | bool (b : Bool)
  | num (n : Int)
  | str (s : String)
  deriving DecidableEq

/-- JSON string escape sequences (the `\uXXXX` form is outside the
model): the escape letter maps to the escaped character. -/
def jsonEscape (c : Char) : Option Char :=
  if c = '"' || c = '\\' || c = '/' then some c
  else if c = 'b' then some '\x08'
  else if c = 'f' then some '\x0c'
  else if c = 'n' then some '\n'
  else if c = 'r' then some '\r'
  else if c = 't' then some '\t'
  else none

/-- Body of a JSON string literal after the opening quote: consumes up to
a closing quote that must end the input. -/
def jsonStringBody : List Char → List Char → Option String
  | [], _ => none
  | '"' :: rest, acc => if rest.isEmpty then some (String.mk acc.reverse) else none
  | '\\' :: c :: rest, acc =>
    match jsonEscape c with
    | some e => jsonStringBody rest (e :: acc)
    | none => none
  | ['\\'], _ => none
  | c :: rest, acc => if c.toNat < 32 then none else jsonStringBody rest (c :: acc)

/-- A JSON integer literal: optional minus sign followed by canonical
digits (the JSON grammar's `int` production). -/
def jsonNumber : List Char → Option Int
  | '-' :: rest =>
    if isCanonicalDigits rest then some (-(Int.ofNat (digitsVal rest))) else none
  | cs => if isCanonicalDigits cs then some (Int.ofNat (digitsVal cs)) else none

/-- Model of the platform builtin `JSON.parse` on the scalar literals the
attribute mini-language uses: `null`, booleans, integer numbers, and
quoted strings.  Fractional or exponent numbers, arrays, objects and
surrounding whitespace are outside the model (treated as a parse
failure). -/
def jsonParse (s : String) : Option Value :=
  if s = "null" then some Value.null
  else if s = "true" then some (Value.bool true)
  else if s = "false" then some (Value.bool false)
  else
    match s.data with
    | '"' :: rest => (jsonStringBody rest []).map Value.str
    | cs => (jsonNumber cs).map Value.num

/-- Embedding of the regex match `^element\s*\(\s*([^)]+)\s*\)$` used by
`resolveParam` and the dependency extractor: the string is
`element` `(` *middle* `)` with optional whitespace after `element`, where
*middle* is nonempty and contains no close-paren; the captured selector is
*middle* trimmed (the surrounding `\s*` plus the source's `.trim()`
normalise to a single trim). -/
def elementMatch (s : String) : Option String :=
  match chompStart "element".data s.data with
  | none => none
  | some rest =>
    match rest.dropWhile isJsSpace with
    | '(' :: body =>
      match body.reverse with
      | ')' :: midRev =>
        let mid := midRev.reverse
        if !mid.isEmpty && mid.all (fun c => !(c = ')')) then
          some (jsTrim (String.mk mid))
        else none
      | _ => none
    | _ => none

/-- Embedding of the regex match `^GLOBAL\.(\w+)$`: the string is
`GLOBAL.` followed by one or more word characters, captured as the key. -/
def globalMatch (s : String) : Option String :=
  match chompStart "GLOBAL.".data s.data with
  | none => none
  | some rest =>
    if !rest.isEmpty && rest.all isWordChar then some (String.mk rest) else none

/-- Embedding of the call-shape regex `^(\w+)\s*\((.*)\)$` from
`setupComputed`: a leading word-character name, optional whitespace, an
opening paren, and a greedy body that must be closed by a final paren at
the end of the string.  Returns the name and the raw body. -/
def functionMatch (s : String) : Option (String × String) :=
  let name := s.data.takeWhile isWordChar
  if name.isEmpty then none
  else
    match (s.data.drop name.length).dropWhile isJsSpace with
    | '(' :: body =>
      match body.reverse with
      | ')' :: paramsRev => some (String.mk name, String.mk paramsRev.reverse)
      | _ => none
    | _ => none

/-- Character scan of `parseParams`: `current` accumulates the argument
being read, `depth` is the paren-depth counter (an integer, as in the
source, so over-closed parens go negative rather than clamping), and
`inString`/`stringChar` track the quote state.  A comma splits only at
depth zero outside a string; each emitted argument is trimmed; a trailing
fragment is emitted only when its trimmed form is nonempty. -/
def parseParamsGo : List Char → String → Int → Bool → Char → List String →
    List String
  | [], current, _, _, _, acc =>
    if jsTrim current = "" then acc else acc ++ [jsTrim current]
  | c :: cs, current, depth, inString, stringChar, acc =>
    if !inString && (c = '"' || c = singleQuoteChar) then
      parseParamsGo cs (current.push c) depth true c acc
    else if inString && c = stringChar then
      parseParamsGo cs (current.push c) depth false stringChar acc
    else if !inString && c = '(' then
      parseParamsGo cs (current.push c) (depth + 1) inString stringChar acc
    else if !inString && c = ')' then
      parseParamsGo cs (current.push c) (depth - 1) inString stringChar acc
    else if !inString && depth = 0 && c = ',' then
      parseParamsGo cs "" depth inString stringChar (acc ++ [jsTrim current])
    else
      parseParamsGo cs (current.push c) depth inString stringChar acc

/-- Embedding of `parseParams` from `setupComputed`: the quote- and
paren-aware argument splitter.  An empty argument string yields the empty
sequence (the source's falsy check). -/
def parseParams (paramsStr : String) : List String :=
  if paramsStr = "" then []
  else parseParamsGo paramsStr.data "" 0 false ' ' []

/-- Embedding of `resolveParam` from `setupComputed`.  The two external
collaborators are passed as environments: `elemEnv sel` is the current
value of a found, reactive element for the selector (`none` when
`document.querySelector` finds nothing or the element has no reactive
state), and `globalEnv key` is the current value of a present `GLOBAL`
registry entry, read through either reactive convention (`none` when the
key is absent).  Precedence is the source's: element pattern, then global
pattern, then JSON literal, then the raw trimmed string. -/
def resolveParam (elemEnv globalEnv : String → Option Value)
    (paramStr0 : String) : Value :=
  let paramStr := jsTrim paramStr0
  match elementMatch paramStr with
  | some selector => (elemEnv selector).getD Value.undef
  | none =>
    match globalMatch paramStr with
    | some key => (globalEnv key).getD Value.undef
    | none =>
      match jsonParse paramStr with
      | some v => v
      | none => Value.str paramStr

/-- Outcome of invoking one subscriber callback: it either returns
normally or raises. -/
inductive CbOutcome where
  | ok
  | exn
  deriving DecidableEq

/-- A subscriber callback as `set` sees it: it receives the subscription
key and the new value and either returns or raises.  Cross-store effects
of callbacks are modelled separately (`CascadeStore` and the `World`
interpreter). -/
def CallbackFn (α : Type) : Type := String → α → CbOutcome

/-- State closed over by one `reactiveFactory` (equally
`reactiveObjectFactory`) instance: the stored value and the subscription
table, kept in insertion order as JavaScript object properties are. -/
structure ReactiveStore (α : Type) where
  value : α
  subs : List (String × CallbackFn α)

/-- The `hasOwnProperty` test on the subscription table. -/
def ReactiveStore.hasKey {α : Type} (s : ReactiveStore α) (key : String) : Bool :=
  s.subs.any (fun p => p.1 == key)

/-- Error message thrown by `subscribe` on a duplicate key. -/
def dupKeyMsg (key : String) : String :=
  s!"Subscription with key \x22{key}\x22 already exists"

/-- Error message thrown by `unsubscribe` on a missing key. -/
def missingKeyMsg (key : String) : String :=
  s!"No subscription with key \x22{key}\x22 exists"

/-- Per-key message logged by `set` when a subscriber callback raises. -/
def errLog (key : String) : String :=
  s!"Error encountered while processing subscription with key: {key}"

/-- Embedding of `get`: a pure read of the closed-over value, with no
side effect on the store. -/
def ReactiveStore.get {α : Type} (s : ReactiveStore α) : α := s.value

/-- Embedding of `subscribe`: a fresh key is appended to the table (the
returned unsubscribe handle is not modelled); a duplicate key throws and
leaves the table untouched. -/
def ReactiveStore.subscribe {α : Type} (s : ReactiveStore α) (key : String)
    (callback : CallbackFn α) : Except String (ReactiveStore α) :=
  if s.hasKey key then Except.error (dupKeyMsg key)
  else Except.ok { s with subs := s.subs ++ [(key, callback)] }

/-- Embedding of `unsubscribe`: `delete subscriptions[key]` for a present
key (keys are unique, so removing every binding of the key is the same
deletion); a missing key throws. -/
def ReactiveStore.unsubscribe {α : Type} (s : ReactiveStore α) (key : String) :
    Except String (ReactiveStore α) :=
  if s.hasKey key then
    Except.ok { s with subs := s.subs.filter (fun p => !(p.1 == key)) }
  else Except.error (missingKeyMsg key)

/-- Trace of one notification loop: the `(key, value)` invocations made,
the per-key error logs, and the key of a development-mode re-raise that
escaped `set` (always `none` in production mode). -/
structure NotifyTrace (α : Type) where
  calls : List (String × α)
  logs : List String
  thrown : Option String
  deriving DecidableEq

/-- The `for ... of Object.entries(subscriptions)` loop body of `set`:
each callback is invoked with its key and the new value inside a
`try`/`catch`; a raising callback is logged per-key, after which
production mode continues with the remaining callbacks while development
mode re-throws, aborting the loop. -/
def runCallbacks {α : Type} (production : Bool) (v : α) :
    List (String × CallbackFn α) → NotifyTrace α
  | [] => ⟨[], [], none⟩
  | (key, cb) :: rest =>
    match cb key v with
    | CbOutcome.ok =>
      let t := runCallbacks production v rest
      ⟨(key, v) :: t.calls, t.logs, t.thrown⟩
    | CbOutcome.exn =>
      if production then
        let t := runCallbacks production v rest
        ⟨(key, v) :: t.calls, errLog key :: t.logs, t.thrown⟩
      else ⟨[(key, v)], [errLog key], some key⟩

/-- Result of `set`: the updated store (the assignment `store = v` happens
before the loop, so it stands even if development mode re-throws) together
with the notification trace. -/
structure SetResult (α : Type) where
  store : ReactiveStore α
  calls : List (String × α)
  logs : List String
  thrown : Option String

/-- Embedding of `set`: assign the value, then run every callback from the
`Object.entries` view of the subscription table. -/
def ReactiveStore.set {α : Type} (production : Bool) (s : ReactiveStore α)
    (v : α) : SetResult α :=
  let t := runCallbacks production v (jsEntries s.subs)
  ⟨{ s with value := v }, t.calls, t.logs, t.thrown⟩

/-- The `get state()` accessor of `reactiveObjectFactory`: its body is a
verbatim duplicate of `reactiveFactory`'s `get`, so the facade delegates
to the same embedding. -/
def reactiveObjectFactory.stateGet {α : Type} : ReactiveStore α → α :=
  ReactiveStore.get

/-- The `set state(v)` accessor of `reactiveObjectFactory`, a verbatim
duplicate of `reactiveFactory`'s `set`. -/
def reactiveObjectFactory.stateSet {α : Type} :
    Bool → ReactiveStore α → α → SetResult α :=
  ReactiveStore.set

/-- The `subscribe` of `reactiveObjectFactory`, a verbatim duplicate of
`reactiveFactory`'s. -/
def reactiveObjectFactory.subscribe {α : Type} :
    ReactiveStore α → String → CallbackFn α → Except String (ReactiveStore α) :=
  ReactiveStore.subscribe

/-- The `unsubscribe` of `reactiveObjectFactory`, a verbatim duplicate of
`reactiveFactory`'s. -/
def reactiveObjectFactory.unsubscribe {α : Type} :
    ReactiveStore α → String → Except String (ReactiveStore α) :=
  ReactiveStore.unsubscribe

/-- A callback that always returns normally (used to instantiate
theorems at concrete stores). -/
def cbAlwaysOk {α : Type} : CallbackFn α := fun _ _ => CbOutcome.ok

/-- A callback that always raises. -/
def cbRaise {α : Type} : CallbackFn α := fun _ _ => CbOutcome.exn

/-- Store state for the value-visibility model of `set`: here a subscriber
callback is abstracted as a function from the value it observes — what
`get()` returns at the moment the callback is invoked, since `get` reads
the closed-over `store` variable that `set` assigns before the loop — to
the value the store holds after the callback ran (`id` for a pure reader;
a re-entrant `set(w)` from inside the callback leaves `w`).  Nested
re-notification triggered by a re-entrant `set` is linearised: it only
re-runs this same observation discipline. -/
structure CascadeStore (α : Type) where
  value : α
  subs : List (α → α)

/-- The notification loop of `set` in the value-visibility model: each
callback observes the value left by its predecessors, starting from the
newly assigned `v` — never from the pre-`set` value.  Returns the list of
observed values and the final stored value. -/
def cascadeNotify {α : Type} (v : α) : List (α → α) → List α × α
  | [] => ([], v)
  | cb :: rest =>
    let w := cb v
    let p := cascadeNotify w rest
    (v :: p.1, p.2)

/-- Embedding of `set` in the value-visibility model: `store = v` is
executed first, so the loop starts from `v`, not from the previous
`s.value`.  Returns the store after all callbacks together with the
observation list. -/
def CascadeStore.set {α : Type} (s : CascadeStore α) (v : α) :
    CascadeStore α × List α :=
  let p := cascadeNotify v s.subs
  ({ s with value := p.2 }, p.1)

/-- A subscription callback installed by the wiring code, deep-embedded so
the notification graph can be interpreted: `recompute` is the closure
`() => computed.state = evaluateExpression()` installed by
`setupComputed` on every dependency (it holds the heap id of the computed
store, the registered function's name and the parsed raw arguments);
`renderProp` is the closure `(_, v) => element.render({ [propKey]: v })`
installed by `bind`; `watchAct` is the `executeWatcher` closure installed
by `setupWatchers` (it holds the target store's heap id and the watch
function's name). -/
inductive SubAction where
  | recompute (cid : Nat) (fnName : String) (params : List String)
  | renderProp (eid : Nat) (propKey : String)
  | watchAct (tid : Nat) (fnName : String)
  deriving DecidableEq

/-- A reactive store living in the interpreted world: its current value
and its subscription table of deep-embedded callbacks. -/
structure RStore where
  value : Value
  subs : List (String × SubAction)
  deriving DecidableEq

/-- A DOM element as the core sees it: whether it carries the
`data-reactive` attribute, the heap id of its reactive `state` store (if
any), and the placeholder keys `{{k}}` of its parsed template. -/
structure Elem where
  hasReactiveAttr : Bool := false
  stateId : Option Nat := none
  tmplKeys : List String := []
  deriving DecidableEq

/-- The context object handed to a watch function by `executeWatcher`:
lazy accessors for globals and elements plus the new value (`$value`). -/
structure WatchCtx where
  globalAcc : String → Value
  elementAcc : String → Value
  newValue : Value

/-- The interpreted world: a heap of reactive stores (reference semantics
— registry entries and closures alias stores through their heap ids), the
`GLOBAL` registry, the `document.querySelector` view (selector to element
id), the elements, the `COMPUTE_FUNCTIONS` registry (shared by computed
and, separately typed, watch functions), the last-rendered props of each
template element, and the console-error log.  Registry entries are
modelled with the object-store convention (`state`/`subscribe`); the
accessor-triple convention reads and subscribes through the same store
operations, so its distinction is not load-bearing for the claims. -/
structure World where
  stores : List (Nat × RStore) := []
  global : List (String × Nat) := []
  elems : List (String × Nat) := []
  elements : List (Nat × Elem) := []
  funcs : List (String × (List Value → Except Unit Value)) := []
  watchFuncs : List (String × (WatchCtx → Except Unit Value)) := []
  rendered : List (Nat × List (String × Value)) := []
  log : List String := []

/-- Current value of the store registered under a `GLOBAL` key, read the
way `resolveParam` and `getGlobalValue` read it (`state` or the getter of
the triple); `none` when the key is absent. -/
def globalEnvOf (w : World) (k : String) : Option Value := do
  let sid ← assocFind w.global k
  let st ← assocFind w.stores sid
  pure st.value

/-- Heap id of the reactive state of the element found by a selector
(`none` when the element is missing or has no `state`). -/
def elemStateId (w : World) (sel : String) : Option Nat := do
  let eid ← assocFind w.elems sel
  let el ← assocFind w.elements eid
  el.stateId

/-- Current value of a selector's reactive element, as `resolveParam` and
`getElementValue` read it. -/
def elemEnvOf (w : World) (sel : String) : Option Value := do
  let sid ← elemStateId w sel
  let st ← assocFind w.stores sid
  pure st.value

/-- `resolveParam` run against the live world. -/
def resolveParamW (w : World) (p : String) : Value :=
  resolveParam (elemEnvOf w) (globalEnvOf w) p

/-- Message logged by `evaluateExpression` when the registered function
(or the resolution of its parameters) raises. -/
def computedErrLog : String := "Error evaluating computed expression:"

/-- Message logged by `executeWatcher` when the watch function raises. -/
def watchErrLog : String := "Error in watcher expression:"

/-- Embedding of `evaluateExpression` from `setupComputed`: resolve every
raw argument fresh against the current world, apply the registered
function, and on a caught error log and yield the empty string. -/
def evaluateExpression (w : World) (fnName : String)
    (paramStrings : List String) : Value × List String :=
  match assocFind w.funcs fnName with
  | none => (Value.str "", [computedErrLog])
  | some f =>
    match f (paramStrings.map (resolveParamW w)) with
    | Except.ok v => (v, [])
    | Except.error _ => (Value.str "", [computedErrLog])

/-- The `getGlobalValue` helper of `setupWatchers` (absent key reads as
undefined). -/
def getGlobalValue (w : World) (k : String) : Value :=
  (globalEnvOf w k).getD Value.undef

/-- The `getElementValue` helper of `setupWatchers`. -/
def getElementValue (w : World) (sel : String) : Value :=
  (elemEnvOf w sel).getD Value.undef

/-- The context object built by `executeWatcher`. -/
def mkWatchCtx (w : World) (v : Value) : WatchCtx :=
  ⟨getGlobalValue w, getElementValue w, v⟩

/-- Append console-error output to the world's log. -/
def appendLog (w : World) (ls : List String) : World :=
  { w with log := w.log ++ ls }

/-- Record a render of element `eid`: the `render` installed by `parse`
replaces every `{{k}}` placeholder from the supplied props and throws if a
placeholder has no prop.  The rendered props are recorded when every
template key is covered. -/
def renderElem (w : World) (eid : Nat) (props : List (String × Value)) :
    Except String World :=
  match assocFind w.elements eid with
  | none => Except.ok w
  | some el =>
    match el.tmplKeys.find? (fun k => !(props.any (fun p => p.1 == k))) with
    | some missing => Except.error (s!"No prop with key \x22{missing}\x22 exists")
    | none => Except.ok { w with rendered := assocUpdate w.rendered eid props }

/-- Overwrite the value of a heap store (the `store = v` assignment). -/
def updateStoreValue (w : World) (sid : Nat) (v : Value) : World :=
  { w with stores :=
      w.stores.map (fun p => if p.1 == sid then (p.1, { p.2 with value := v }) else p) }

/-- Interpret one deep-embedded subscription callback, with `recSet` the
(fuel-limited) `set` used for any nested store assignment the callback
performs.  `recompute` re-evaluates the computed expression against the
current world and assigns the result to the computed store.  `renderProp`
re-renders the bound element with the new value under its prop key; a
throwing render is caught by `set`'s per-key catch.  `watchAct` is
`executeWatcher`: it applies the watch function to the context and writes
the result to the target store; its own `try`/`catch` logs a raising
watch function and leaves the target untouched. -/
def runActionWith (recSet : World → Nat → Value → World) (w : World)
    (subKey : String) (v : Value) : SubAction → World
  | SubAction.recompute cid fnName params =>
    let r := evaluateExpression w fnName params
    recSet (appendLog w r.2) cid r.1
  | SubAction.renderProp eid propKey =>
    match renderElem w eid [(propKey, v)] with
    | Except.ok w1 => w1
    | Except.error _ => appendLog w [errLog subKey]
  | SubAction.watchAct tid fnName =>
    match assocFind w.watchFuncs fnName with
    | none => appendLog w [watchErrLog]
    | some f =>
      match f (mkWatchCtx w v) with
      | Except.error _ => appendLog w [watchErrLog]
      | Except.ok res => recSet w tid res

/-- Run the snapshot of a store's subscription entries in order,
depth-first (each callback's nested sets complete before the next entry
runs, as the JavaScript call stack does). -/
def runEntriesList (recSet : World → Nat → Value → World) (v : Value) :
    World → List (String × SubAction) → World
  | w, [] => w
  | w, (k, act) :: rest =>
    runEntriesList recSet v (runActionWith recSet w k v act) rest

/-- Fuel-limited interpretation of `set` on a heap store: assign the value
first, then run the `Object.entries` snapshot of its subscriptions.  The
fuel bounds nested re-entrant set chains (the source relies on call-stack
depth; a cycle would overflow the stack, an explicit non-goal). -/
def worldSet : Nat → World → Nat → Value → World
  | 0, w, _, _ => w
  | Nat.succ fuel, w, sid, v =>
    match assocFind w.stores sid with
    | none => w
    | some st =>
      runEntriesList (fun w2 sid2 v2 => worldSet fuel w2 sid2 v2)
        v (updateStoreValue w sid v) (jsEntries st.subs)

/-- The `subscribe` of a heap store, as the wiring code calls it: a
duplicate key throws (the error propagates out of the wiring function),
a fresh key is appended. -/
def subscribeStore (w : World) (sid : Nat) (key : String) (act : SubAction) :
    Except String World :=
  match assocFind w.stores sid with
  | none => Except.ok w
  | some st =>
    if st.subs.any (fun p => p.1 == key) then Except.error (dupKeyMsg key)
    else
      let stores' := w.stores.map (fun p =>
        if p.1 == sid then (p.1, { p.2 with subs := st.subs ++ [(key, act)] }) else p)
      Except.ok { w with stores := stores' }

/-- Subscribe the same callback on each listed store in order, stopping at
the first thrown duplicate-key error (the `setupSubscriptions` loops). -/
def subscribeAll (subKey : String) (act : SubAction) :
    World → List Nat → Except String World
  | w, [] => Except.ok w
  | w, sid :: rest =>
    match subscribeStore w sid subKey act with
    | Except.error e => Except.error e
    | Except.ok w1 => subscribeAll subKey act w1 rest

/-- Insert into an insertion-ordered set (JavaScript `Set.prototype.add`). -/
def dedupAdd (l : List String) (x : String) : List String :=
  if l.any (fun s => s == x) then l else l ++ [x]

/-- Dependency extraction of `setupComputed`: per raw argument, an
`element(<selector>)` match adds the trimmed selector to the element set
and a `GLOBAL.<key>` match adds the key to the global set, both
insertion-ordered and deduplicated.  Returns (global keys, selectors). -/
def extractDeps (paramStrings : List String) : List String × List String :=
  paramStrings.foldl
    (fun acc p =>
      let acc1 := match elementMatch p with
        | some sel => (acc.1, dedupAdd acc.2 sel)
        | none => acc
      match globalMatch p with
      | some k => (dedupAdd acc1.1 k, acc1.2)
      | none => acc1)
    ([], [])

/-- A heap id unused by the current world, for the freshly constructed
computed store. -/
def freshStoreId (w : World) : Nat :=
  (w.stores.map (fun p => p.1)).foldl (fun a b => max a b) 0 + 1

/-- Embedding of `setupComputed` for an element whose `data-compute`
attribute holds `computeRule`.  Mirrors the source step by step: split the
rule at `|` and reject a missing or empty target key or function call;
match the call shape; require the function in the registry (the `window`
fallback is an external collaborator outside the model); tokenize the
arguments; create the computed store with initial value `""`; extract the
dependency set and subscribe the re-evaluation callback keyed
`computed-<targetKey>` on every present global dependency and then on
every found reactive element dependency (a thrown duplicate-key error
propagates); run the initial evaluation synchronously and assign it to the
computed store; finally register the computed store under the target key
in `GLOBAL`. -/
def setupComputed (fuel : Nat) (w : World) (computeRule : String) :
    Except String World :=
  let parts := jsSplit computeRule '|'
  let targetKey := parts.headD ""
  match (parts.drop 1).head? with
  | none => Except.error "Invalid data-compute format."
  | some functionCall =>
    if targetKey = "" || functionCall = "" then
      Except.error "Invalid data-compute format."
    else
      match functionMatch functionCall with
      | none => Except.error "Invalid function call format."
      | some (functionName, paramsRaw) =>
        match assocFind w.funcs functionName with
        | none => Except.error (s!"Compute function \x22{functionName}\x22 not found.")
        | some _ =>
          let paramStrings := parseParams (jsTrim paramsRaw)
          let cid := freshStoreId w
          let w0 := { w with stores := w.stores ++ [(cid, ⟨Value.str "", []⟩)] }
          let deps := extractDeps paramStrings
          let act := SubAction.recompute cid functionName paramStrings
          let gids := deps.1.filterMap (fun k => assocFind w0.global k)
          let eids := deps.2.filterMap (fun sel => elemStateId w0 sel)
          match subscribeAll (s!"computed-{targetKey}") act w0 (gids ++ eids) with
          | Except.error e => Except.error e
          | Except.ok w1 =>
            let r := evaluateExpression w1 functionName paramStrings
            let w2 := worldSet fuel (appendLog w1 r.2) cid r.1
            Except.ok { w2 with global := assocUpdate w2.global targetKey cid }

/-- Assign to the store registered under a `GLOBAL` key (the
`GLOBAL.x.set(v)` / `GLOBAL.x.state = v` call of the claims). -/
def globalSetState (fuel : Nat) (w : World) (k : String) (v : Value) : World :=
  match assocFind w.global k with
  | some sid => worldSet fuel w sid v
  | none => w

/-- Embedding of `bind` for an element `eid` whose `data-bind` attribute
holds `bindRule`.  The rule splits at `|` into a selector and a key.  When
the selector contains the substring `GLOBAL`, the source requires
`GLOBAL` to have the *key* (the template key, not the name in the
selector), subscribes the render callback on that entry under
`bind-<key>`, and immediately renders `{ [key]: current }`.  Otherwise the
selector is queried, the element must carry `data-reactive`, the render
callback is subscribed on its state under `bind-<key>` and renders under
the literal prop key `name`, and one immediate `{ name: current }` render
is performed. -/
def bindWire (w : World) (eid : Nat) (bindRule : String) : Except String World :=
  let parts := jsSplit bindRule '|'
  let selector := parts.headD ""
  let key := ((parts.drop 1).head?).getD "undefined"
  if strContains selector "GLOBAL" then
    match assocFind w.global key with
    | none => Except.error (s!"No global with key \x22{key}\x22 exists")
    | some sid =>
      match subscribeStore w sid (s!"bind-{key}") (SubAction.renderProp eid key) with
      | Except.error e => Except.error e
      | Except.ok w1 =>
        renderElem w1 eid
          [(key, ((assocFind w1.stores sid).map (fun st => st.value)).getD Value.undef)]
  else
    match assocFind w.elems selector with
    | none => Except.error (s!"Element with selector \x22{selector}\x22 is not reactive")
    | some beid =>
      match assocFind w.elements beid with
      | none => Except.error (s!"Element with selector \x22{selector}\x22 is not reactive")
      | some bel =>
        if !bel.hasReactiveAttr then
          Except.error (s!"Element with selector \x22{selector}\x22 is not reactive")
        else
          match bel.stateId with
          | none => Except.error "TypeError: bindTarget.state is undefined"
          | some sid =>
            match subscribeStore w sid (s!"bind-{key}") (SubAction.renderProp eid "name") with
            | Except.error e => Except.error e
            | Except.ok w1 =>
              renderElem w1 eid
                [("name", ((assocFind w1.stores sid).map (fun st => st.value)).getD Value.undef)]

/-- The subscription keys currently registered on a heap store. -/
def subKeysOfStore (w : World) (sid : Nat) : List String :=
  ((assocFind w.stores sid).map (fun st => st.subs.map (fun p => p.1))).getD []

/-- Current value of a heap store. -/
def readStoreValue (w : World) (sid : Nat) : Option Value :=
  (assocFind w.stores sid).map (fun st => st.value)

/-- Current value registered under a `GLOBAL` key. -/
def readGlobalValue (w : World) (k : String) : Option Value :=
  globalEnvOf w k

/-- The registered compute function `double` of the C6 scenario: returns
twice its single numeric argument, raising on anything else. -/
def dblFn : List Value → Except Unit Value
  | [Value.num n] => Except.ok (Value.num (2 * n))
  | _ => Except.error ()

/-- C6 scenario world: `GLOBAL.x` holds a reactive value `2` and `double`
is registered in the compute-function registry. -/
def c6World : World :=
  { stores := [(0, { value := Value.num 2, subs := [] })],
    global := [("x", 0)],
    funcs := [("double", dblFn)] }

/-- C9 scenario world: `GLOBAL.x` holds `1` (store 0), `GLOBAL.y` holds
`2` (store 1), and element 5 is the bound template element whose template
has the single placeholder key `y`. -/
def c9World : World :=
  { stores := [(0, { value := Value.num 1, subs := [] }),
               (1, { value := Value.num 2, subs := [] })],
    global := [("x", 0), ("y", 1)],
    elements := [(5, { tmplKeys := ["y"] })] }

/-- C9 element-branch scenario world: selector `#src` finds element 6,
which is reactive with state store 2 holding `7`; element 5 is the bound
template element whose template uses the placeholder key `name`. -/
def c9ElemWorld : World :=
  { stores := [(2, { value := Value.num 7, subs := [] })],
    elems := [("#src", 6)],
    elements := [(5, { tmplKeys := ["name"] }),
                 (6, { hasReactiveAttr := true, stateId := some 2 })] }

/-- A registered compute function that always raises. -/
def alwaysRaise : List Value → Except Unit Value := fun _ => Except.error ()

/-- A registered watch function that always raises. -/
def alwaysRaiseWatch : WatchCtx → Except Unit Value := fun _ => Except.error ()

/-- C7 witness world: store 0 holds the last successfully computed value
`4`; the registries hold an always-raising compute function and an
always-raising watch function. -/
def c7World : World :=
  { stores := [(0, { value := Value.num 4, subs := [] })],
    funcs := [("boom", alwaysRaise)],
    watchFuncs := [("wboom", alwaysRaiseWatch)] }

/-- Helper: a `find?` that fails on the first list segment passes through
an append. -/
theorem find_append_of_none {β : Type} {pr : β → Bool} {l1 l2 : List β}
    (h : l1.find? pr = none) : (l1 ++ l2).find? pr = l2.find? pr := by
  induction l1 with
  | nil => rfl
  | cons a l ih =>
    cases hpa : pr a with
    | true => rw [List.find?_cons_of_pos _ hpa] at h; cases h
    | false =>
      rw [List.find?_cons_of_neg _ (by simp [hpa])] at h
      rw [List.cons_append, List.find?_cons_of_neg _ (by simp [hpa])]
      exact ih h

/-- Helper: after filtering a key out of a subscription table, no entry
with that key remains. -/
theorem any_filter_not {β : Type} (l : List (String × β)) (k : String) :
    ((l.filter (fun p => !(p.1 == k))).any (fun p => p.1 == k)) = false := by
  induction l with
  | nil => rfl
  | cons p l ih =>
    cases h : p.1 == k <;> simp [List.filter_cons, h, ih]

/-- Helper: when no subscription key is an ECMAScript array index, the
`Object.entries` view coincides with insertion order. -/
theorem jsEntries_eq_self {β : Type} (l : List (String × β))
    (h : l.all (fun p => (jsArrayIndex p.1).isNone) = true) : jsEntries l = l := by
  have h1 : l.filterMap (fun p => (jsArrayIndex p.1).map (fun n => (n, p))) = [] := by
    rw [List.filterMap_eq_nil_iff]
    intro a ha
    rw [Option.isNone_iff_eq_none.mp (List.all_eq_true.mp h a ha)]
    rfl
  have h2 : l.filter (fun p => (jsArrayIndex p.1).isNone) = l :=
    List.filter_eq_self.mpr (fun a ha => List.all_eq_true.mp h a ha)
  rw [jsEntries, h1, h2]
  rfl

/-- Helper: in production mode the notification loop invokes every entry
exactly once with its key and the new value, in entry order, whether or
not callbacks raise. -/
theorem runCallbacks_calls_production {α : Type} (v : α)
    (l : List (String × CallbackFn α)) :
    (runCallbacks true v l).calls = l.map (fun p => (p.1, v)) := by
  induction l with
  | nil => rfl
  | cons p l ih =>
    obtain ⟨k, cb⟩ := p
    cases hcb : cb k v <;> simp [runCallbacks, hcb, ih]

/-- C1: for every store created by `reactiveFactory` (and, through the
verbatim-duplicate accessors, `reactiveObjectFactory`) and every value
`v`, `set(v)` followed by `get()` returns exactly `v`, in either
notification mode; `get` is the pure read of the stored value, with no
side effect on the store.  (Subscriber callbacks are modelled here as
observers that may raise; a callback that re-entrantly assigns the store
is the subject of the value-visibility model of C10.) -/
theorem c1_set_then_get {α : Type} (production : Bool) (s : ReactiveStore α)
    (v : α) :
    ReactiveStore.get (ReactiveStore.set production s v).store = v
  ∧ ReactiveStore.get s = s.value
  ∧ reactiveObjectFactory.stateGet
      (reactiveObjectFactory.stateSet production s v).store = v :=
  ⟨rfl, rfl, rfl⟩

/-- C2: subscribing a fresh key succeeds and appends the callback; a
second subscribe under the same key fails with the duplicate-key error and
the first subscription is still the one registered; unsubscribing a key
that is not subscribed fails with the missing-key error; unsubscribing the
key removes it, after which subscribing the same key succeeds again. -/
theorem c2_subscription_key_discipline {α : Type} (s : ReactiveStore α)
    (k : String) (cb1 cb2 : CallbackFn α) (hfresh : s.hasKey k = false) :
    ReactiveStore.subscribe s k cb1
      = Except.ok { s with subs := s.subs ++ [(k, cb1)] }
  ∧ ReactiveStore.subscribe { s with subs := s.subs ++ [(k, cb1)] } k cb2
      = Except.error (dupKeyMsg k)
  ∧ assocFind (s.subs ++ [(k, cb1)]) k = some cb1
  ∧ ReactiveStore.unsubscribe s k = Except.error (missingKeyMsg k)
  ∧ ReactiveStore.unsubscribe { s with subs := s.subs ++ [(k, cb1)] } k
      = Except.ok { s with subs := (s.subs ++ [(k, cb1)]).filter (fun p => !(p.1 == k)) }
  ∧ ReactiveStore.subscribe
      { s with subs := (s.subs ++ [(k, cb1)]).filter (fun p => !(p.1 == k)) } k cb2
      = Except.ok { s with
          subs := (s.subs ++ [(k, cb1)]).filter (fun p => !(p.1 == k)) ++ [(k, cb2)] } := by
  have hdup : ReactiveStore.hasKey { s with subs := s.subs ++ [(k, cb1)] } k = true := by
    simp [ReactiveStore.hasKey, List.any_append]
  have hnone : s.subs.find? (fun p => p.1 == k) = none := by
    rw [List.find?_eq_none]
    intro x hx
    simp only [ReactiveStore.hasKey, List.any_eq_false] at hfresh
    exact hfresh x hx
  have hfiltered : ReactiveStore.hasKey
      { s with subs := (s.subs ++ [(k, cb1)]).filter (fun p => !(p.1 == k)) } k = false := by
    simp only [ReactiveStore.hasKey]
    exact any_filter_not _ _
  refine ⟨?_, ?_, ?_, ?_, ?_, ?_⟩
  · simp [ReactiveStore.subscribe, hfresh]
  · simp [ReactiveStore.subscribe, hdup]
  · rw [assocFind, find_append_of_none hnone]
    simp [List.find?]
  · simp [ReactiveStore.unsubscribe, hfresh]
  · simp [ReactiveStore.unsubscribe, hdup]
  · simp [ReactiveStore.subscribe, ReactiveStore.hasKey, any_filter_not]

/-- Witness for C2 at a concrete store: the second subscribe under the
live key `a` fails with the duplicate-key error. -/
theorem c2_subscription_key_discipline_witness :
    ReactiveStore.subscribe
      ({ value := 0, subs := [("a", cbAlwaysOk)] } : ReactiveStore Nat) "a" cbAlwaysOk
      = Except.error (dupKeyMsg "a") :=
  (c2_subscription_key_discipline ⟨0, []⟩ "a" cbAlwaysOk cbAlwaysOk rfl).2.1

/-- C3: the argument splitter on the raw string `a, "b,c", (d,e), f`
yields exactly `a`, `"b,c"`, `(d,e)`, `f` — commas inside quotes or
parens do not split, each argument is trimmed, and a non-empty trailing
fragment is emitted as a final argument; trailing whitespace-only content
is dropped; the empty argument string yields the empty sequence. -/
theorem c3_parseParams_splitting :
    parseParams "a, \"b,c\", (d,e), f" = ["a", "\"b,c\"", "(d,e)", "f"]
  ∧ parseParams "" = []
  ∧ parseParams "a,   " = ["a"] := by decide

/-- C4: the parameter resolver resolves the unquoted `123` to the number
`123` and the quoted `"123"` to the string `123` for every environment
(the JSON attempt runs before the raw-string fallback); `element(#x)` is
resolved by the element pattern — its value is exactly the element
environment's answer, `undefined` when the element is missing or
non-reactive; `GLOBAL.k` is resolved by the global pattern, `undefined`
when the key is absent. -/
theorem c4_resolveParam_precedence (e g : String → Option Value) :
    resolveParam e g "123" = Value.num 123
  ∧ resolveParam e g "\"123\"" = Value.str "123"
  ∧ resolveParam e g "element(#x)" = (e "#x").getD Value.undef
  ∧ (e "#x" = none → resolveParam e g "element(#x)" = Value.undef)
  ∧ resolveParam e g "GLOBAL.k" = (g "k").getD Value.undef
  ∧ (g "k" = none → resolveParam e g "GLOBAL.k" = Value.undef) := by
  refine ⟨rfl, rfl, rfl, ?_, rfl, ?_⟩
  · intro h
    show (e "#x").getD Value.undef = Value.undef
    rw [h]
    rfl
  · intro h
    show (g "k").getD Value.undef = Value.undef
    rw [h]
    rfl

/-- Witness for C4 at concrete environments with no elements and no
globals: the element reference and the global reference both resolve to
`undefined`, not an error. -/
theorem c4_resolveParam_precedence_witness :
    resolveParam (fun _ => none) (fun _ => none) "element(#x)" = Value.undef
  ∧ resolveParam (fun _ => none) (fun _ => none) "GLOBAL.k" = Value.undef :=
  ⟨(c4_resolveParam_precedence (fun _ => none) (fun _ => none)).2.2.2.1 rfl,
   (c4_resolveParam_precedence (fun _ => none) (fun _ => none)).2.2.2.2.2 rfl⟩

/-- C5: in production mode, on a store with two subscribed callbacks
where the first raises, `set v` still invokes the second callback with its
key and `v` (both invocations appear, in order, with the new value), the
raised error is caught and logged per-key, `set` completes without
raising, and the value is assigned. -/
theorem c5_error_isolation {α : Type} (a v : α) (cb1 cb2 : CallbackFn α)
    (h1 : cb1 "a" v = CbOutcome.exn) (h2 : cb2 "b" v = CbOutcome.ok) :
    (ReactiveStore.set true ⟨a, [("a", cb1), ("b", cb2)]⟩ v).calls = [("a", v), ("b", v)]
  ∧ (ReactiveStore.set true ⟨a, [("a", cb1), ("b", cb2)]⟩ v).logs = [errLog "a"]
  ∧ (ReactiveStore.set true ⟨a, [("a", cb1), ("b", cb2)]⟩ v).thrown = none
  ∧ (ReactiveStore.set true ⟨a, [("a", cb1), ("b", cb2)]⟩ v).store.value = v := by
  have hje : jsEntries [("a", cb1), ("b", cb2)] = [("a", cb1), ("b", cb2)] := rfl
  refine ⟨?_, ?_, ?_, rfl⟩ <;>
    simp [ReactiveStore.set, hje, runCallbacks, h1, h2]

/-- Witness for C5 at a concrete store over `Nat` with a raising first
callback. -/
theorem c5_error_isolation_witness :
    (ReactiveStore.set true (⟨0, [("a", cbRaise), ("b", cbAlwaysOk)]⟩ : ReactiveStore Nat) 7).calls
      = [("a", 7), ("b", 7)] :=
  (c5_error_isolation 0 7 cbRaise cbAlwaysOk rfl rfl).1

/-- Counterexample for C8: the claim promises invocation in subscription
insertion order for every store, but `set` iterates `Object.entries`,
which orders array-index keys numerically first.  Subscribing key `1`
then key `0` and setting `7` invokes `0` before `1` — not the insertion
order. -/
theorem c8_insertion_order_counterexample :
    (ReactiveStore.set true
        (⟨0, [("1", cbAlwaysOk), ("0", cbAlwaysOk)]⟩ : ReactiveStore Nat) 7).calls
      = [("0", 7), ("1", 7)]
  ∧ (ReactiveStore.set true
        (⟨0, [("1", cbAlwaysOk), ("0", cbAlwaysOk)]⟩ : ReactiveStore Nat) 7).calls
      ≠ [("1", 7), ("0", 7)] := by decide

/-- C8 (amended): `set v` synchronously invokes every currently registered
callback exactly once with its own key and `v`, before returning, in the
`Object.entries` order of the subscription table — which equals insertion
order whenever no subscription key is an ECMAScript array-index string
(as is the case for every key this library itself creates). -/
theorem c8_invocation_order_amended {α : Type} (s : ReactiveStore α) (v : α)
    (h : s.subs.all (fun p => (jsArrayIndex p.1).isNone) = true) :
    (ReactiveStore.set true s v).calls = s.subs.map (fun p => (p.1, v)) := by
  have hc : (ReactiveStore.set true s v).calls
      = (runCallbacks true v (jsEntries s.subs)).calls := rfl
  rw [hc, jsEntries_eq_self _ h, runCallbacks_calls_production]

/-- Witness for C8 (amended) at a concrete two-subscriber store with
non-index keys, the first callback raising. -/
theorem c8_invocation_order_amended_witness :
    (ReactiveStore.set true
        (⟨0, [("b", cbRaise), ("a", cbAlwaysOk)]⟩ : ReactiveStore Nat) 7).calls
      = [("b", 7), ("a", 7)] :=
  c8_invocation_order_amended _ 7 (by decide)

/-- C10: inside `set v` the stored value is assigned before any callback
runs, so the value observed by a `get()` from within any callback —
including values left by re-entrant assignments of earlier callbacks in
the cascade — is a function of `v` and the callbacks alone, never of the
pre-`set` value; in particular the first callback observes exactly `v`. -/
theorem c10_assign_before_notify {α : Type} (a b v : α) (cbs : List (α → α))
    (cb : α → α) :
    (CascadeStore.set ⟨a, cbs⟩ v).2 = (CascadeStore.set ⟨b, cbs⟩ v).2
  ∧ (CascadeStore.set ⟨a, cb :: cbs⟩ v).2.head? = some v :=
  ⟨rfl, rfl⟩

/-- C6: wiring the compute rule `target|double(GLOBAL.x)` in a world where
`GLOBAL.x` holds the reactive value `2` and `double` is registered runs
the initial evaluation synchronously at wiring time, so `GLOBAL.target`
holds `4` immediately after setup; the source dependency `GLOBAL.x`
carries exactly the re-evaluation subscription keyed
`computed-target`; and after setting `GLOBAL.x` to `5`, with no
re-registration, `GLOBAL.target` holds `10`. -/
theorem c6_computed_reevaluation :
    (setupComputed 8 c6World "target|double(GLOBAL.x)").toOption.map (fun w1 =>
      (readGlobalValue w1 "target",
       subKeysOfStore w1 0,
       readGlobalValue (globalSetState 8 w1 "x" (Value.num 5)) "target"))
    = some (some (Value.num 4), ["computed-target"], some (Value.num 10)) := by
  decide

/-- C7: when the registered function of a computed or watched target
raises during evaluation, the error is caught and logged and the target is
never handed the error.  For a computed target, `evaluateExpression`
catches the error, logs it, and yields the computed store's declared
default `""` — the initial value `setupComputed` constructs it with — so
the recompute callback assigns exactly that default.  For a watched
target, `executeWatcher` catches the error, logs it, and performs no
write at all, so the target store keeps its last value. -/
theorem c7_evaluation_error_handling (recSet : World → Nat → Value → World)
    (w : World) (k : String) (v : Value) (cid tid : Nat) (fn wfn : String)
    (params : List String) (f : List Value → Except Unit Value)
    (g : WatchCtx → Except Unit Value)
    (hf : assocFind w.funcs fn = some f)
    (hfe : f (params.map (resolveParamW w)) = Except.error ())
    (hg : assocFind w.watchFuncs wfn = some g)
    (hge : g (mkWatchCtx w v) = Except.error ()) :
    evaluateExpression w fn params = (Value.str "", [computedErrLog])
  ∧ runActionWith recSet w k v (SubAction.recompute cid fn params)
      = recSet (appendLog w [computedErrLog]) cid (Value.str "")
  ∧ runActionWith recSet w k v (SubAction.watchAct tid wfn)
      = appendLog w [watchErrLog]
  ∧ readStoreValue (runActionWith recSet w k v (SubAction.watchAct tid wfn)) tid
      = readStoreValue w tid := by
  have he : evaluateExpression w fn params = (Value.str "", [computedErrLog]) := by
    simp [evaluateExpression, hf, hfe]
  refine ⟨he, ?_, ?_, ?_⟩
  · simp [runActionWith, he]
  · simp [runActionWith, hg, hge]
  · simp [runActionWith, hg, hge, readStoreValue, appendLog]

/-- Witness for C7 at a concrete world whose store 0 holds the last
successfully computed value `4`: the raising watch function leaves the
target's value untouched. -/
theorem c7_evaluation_error_handling_witness :
    readStoreValue
      (runActionWith (fun w _ _ => w) c7World "k" (Value.num 1)
        (SubAction.watchAct 0 "wboom")) 0
      = readStoreValue c7World 0 :=
  (c7_evaluation_error_handling (fun w _ _ => w) c7World "k" (Value.num 1) 0 0
    "boom" "wboom" [] alwaysRaise alwaysRaiseWatch rfl rfl rfl rfl).2.2.2

/-- Counterexample for C9: for the bind rule `GLOBAL.x|y` in a world where
`GLOBAL.x` is store 0 (value `1`) and `GLOBAL.y` is store 1 (value `2`),
the claim puts the `bind-y` subscription on the named source `GLOBAL.x`
and renders `x`'s current value under the template key.  The code instead
looks the bind target up under the *template key*: store 0 ends up with no
subscription at all, while store 1 (`GLOBAL.y`) carries `bind-y` and the
immediate render supplies `y`'s value `2`, not the named source's `1`. -/
theorem c9_bind_counterexample :
    (bindWire c9World 5 "GLOBAL.x|y").toOption.map (fun w =>
      (subKeysOfStore w 0, subKeysOfStore w 1, assocFind w.rendered 5))
      = some ([], ["bind-y"], some [("y", Value.num 2)])
  ∧ (bindWire c9World 5 "GLOBAL.x|y").toOption.map (fun w => subKeysOfStore w 0)
      ≠ some ["bind-y"] := by
  decide

/-- C9 (amended): for a bind rule `<selector>|<templateKey>`, when the
selector contains `GLOBAL` the render callback is subscribed under
`bind-<templateKey>` on the store registered in `GLOBAL` under the
*template key* (the key named in the selector is ignored), and one
immediate render is performed with that store's current value under the
template key — and on later sets of that store the callback re-renders
with the new value; for an element selector, the callback is subscribed
under `bind-<templateKey>` on the selector element's reactive state, but
both the immediate render and the callback supply the value under the
literal prop key `name`, not the template key. -/
theorem c9_bind_amended :
    (bindWire c9World 5 "GLOBAL.x|y").toOption.map (fun w =>
      (subKeysOfStore w 1, assocFind w.rendered 5))
      = some (["bind-y"], some [("y", Value.num 2)])
  ∧ (bindWire c9World 5 "GLOBAL.x|y").toOption.map (fun w =>
      assocFind (worldSet 4 w 1 (Value.num 9)).rendered 5)
      = some (some [("y", Value.num 9)])
  ∧ (bindWire c9ElemWorld 5 "#src|t").toOption.map (fun w =>
      (subKeysOfStore w 2, assocFind w.rendered 5))
      = some (["bind-t"], some [("name", Value.num 7)]) := by
  decide

end Reactive
